import Mathlib

/-!
Formal model of the `vaultapi` token-management client (`auth.go`).

The repository is a thin facade translating typed calls into JSON-over-HTTP
requests against fixed paths under `/v1/auth/token/*`.  The HTTP transport
(`client.get/post/list/delete`), the path helper `fixup`, and the logger live
in repository files outside `auth.go`; they are modelled from the spec where
needed, as noted on each definition.  Everything else is translated directly
from `auth.go`.

Modelling conventions:
* Go `string` is Lean `String`; Go byte-lexicographic string order coincides
  with code-point order (UTF-8 preserves code-point order), modelled by a
  structural comparison on `String.data`.
* Go slices are Lean `List`s (a `nil` slice is identified with the empty
  slice; the only observable difference, `null` vs `[]` in marshalled
  output, is not touched by any claim).
* A Go `error` is modelled by its message string (`GoErr`); `nil` error is
  `Option.none`.  `github.com/pkg/errors`: `Wrap/Wrapf(err, msg)` produces
  the message `msg ++ ": " ++ err`; `Errorf(msg)` produces `msg`.
* `time.Duration` is its underlying `int64` count of nanoseconds, `ℤ`.
* Functions whose outcome is decided outside this code (the HTTP transport,
  `json.Marshal`'s failure behaviour) are passed in as explicit parameters;
  the concrete marshaller used by the real code is also defined and is
  plugged in where a claim is about the actual request body.
* Each operation returns, besides its Go results, the list of observable
  events it performed (log lines and transport calls), in order.
-/

namespace Vaultapi

/-- A Go error, modelled by its message (`err.Error()`). -/
abbrev GoErr := String

/-- `github.com/pkg/errors`: `errors.Wrap(err, msg)` / `errors.Wrapf(err, msg)`
(no format verbs are used on the wrap messages in `auth.go` except `%q`,
which is expanded at the call sites below).  The resulting message is
`msg + ": " + err.Error()`. -/
def errWrap (msg : String) (e : GoErr) : GoErr := msg ++ ": " ++ e

/-- Go `%q` of a plain path/name string: the string surrounded by double
quotes (none of the strings interpolated in `auth.go` contain characters
that `%q` would escape differently). -/
def goQuote (s : String) : String := "\"" ++ s ++ "\""

/-- JSON values as produced by `encoding/json` on the structs of `auth.go`
(numbers are integers: every numeric field is `int`/`int64`/`time.Duration`). -/
inductive Jval where
  | null
  | bool (b : Bool)
  | int (n : ℤ)
  | str (s : String)
  | arr (elems : List Jval)
  | obj (fields : List (String × Jval))

/-- Hex digit (lowercase), as used by `encoding/json` in `\u00XX` escapes. -/
def hexDigit (n : ℕ) : Char :=
  if n < 10 then Char.ofNat (48 + n) else Char.ofNat (87 + n)

/-- `encoding/json` escaping of one character inside a JSON string
(default encoder: HTML characters are escaped too). -/
def jsonEscapeChar (c : Char) : String :=
  if c = '"' then "\\\""
  else if c = '\\' then "\\\\"
  else if c = '\n' then "\\n"
  else if c = '\r' then "\\r"
  else if c = '\t' then "\\t"
  else if c = '<' then "\\u003c"
  else if c = '>' then "\\u003e"
  else if c = '&' then "\\u0026"
  else if c.toNat < 32 then
    "\\u00" ++ String.mk [hexDigit (c.toNat / 16), hexDigit (c.toNat % 16)]
  else if c = ' ' then "\\u2028"
  else if c = ' ' then "\\u2029"
  else String.mk [c]

/-- `encoding/json` rendering of a string literal. -/
def jsonEncodeStr (s : String) : String :=
  "\"" ++ String.join (s.data.map jsonEscapeChar) ++ "\""

mutual

/-- Serialization of a JSON value, as `encoding/json` renders the structs of
`auth.go` (no insignificant whitespace). -/
def jsonEncode : Jval → String
  | .null => "null"
  | .bool true => "true"
  | .bool false => "false"
  | .int n => toString n
  | .str s => jsonEncodeStr s
  | .arr xs => "[" ++ jsonEncodeItems xs ++ "]"
  | .obj fs => "\x7b" ++ jsonEncodeMembers fs ++ "\x7d"

/-- Comma-separated array items. -/
def jsonEncodeItems : List Jval → String
  | [] => ""
  | [x] => jsonEncode x
  | x :: y :: t => jsonEncode x ++ "," ++ jsonEncodeItems (y :: t)

/-- Comma-separated object members. -/
def jsonEncodeMembers : List (String × Jval) → String
  | [] => ""
  | [(k, v)] => jsonEncodeStr k ++ ":" ++ jsonEncode v
  | (k, v) :: m :: t => jsonEncodeStr k ++ ":" ++ jsonEncode v ++ "," ++ jsonEncodeMembers (m :: t)

end

/-- First member of a JSON object with the given key, if any (the objects
produced by the marshallers below have pairwise distinct keys). -/
def lookupField (name : String) : List (String × Jval) → Option Jval
  | [] => none
  | (k, v) :: t => if k = name then some v else lookupField name t

/-- Splitting a character list at commas (components in order; no comma
yields a single component). -/
def splitOnComma : List Char → List (List Char)
  | [] => [[]]
  | c :: t =>
    if c = ',' then [] :: splitOnComma t
    else
      match splitOnComma t with
      | [] => [[c]]
      | h :: t2 => (c :: h) :: t2

/-- The name part of a `json:"..."` struct tag: everything before the first
comma (`encoding/json`'s `parseTag`). -/
def jsonFieldName (tag : String) : String :=
  String.mk ((splitOnComma tag.data).headD [])

/-- Whether a `json:"..."` struct tag carries the option `omitempty`:
`encoding/json`'s `tagOptions.Contains("omitempty")`, an exact string match
among the comma-separated items after the name.  A misspelling such as
`omitmempty` is simply an unrecognized option and is ignored. -/
def tagHasOmitEmpty (tag : String) : Bool :=
  ((splitOnComma tag.data).drop 1).contains "omitempty".data

/-- One struct field as `encoding/json` sees it: the raw tag from the source,
the encoded value, and whether the Go value is empty (`isEmptyValue`:
zero number, false, empty string, zero-length slice). -/
structure JField where
  tag : String
  value : Jval
  isEmpty : Bool

/-- `encoding/json` object construction over a struct's fields, in
declaration order: a field is dropped iff its tag has a (correctly spelled)
`omitempty` option and its value is empty. -/
def marshalFields (fs : List JField) : List (String × Jval) :=
  (fs.filter (fun f => !(tagHasOmitEmpty f.tag && f.isEmpty))).map
    (fun f => (jsonFieldName f.tag, f.value))

/-- Observable side effects of one operation, in order: a logger line
(`c.opts.Logger.Printf`, recorded as the formatted string) or a transport
call (`c.post` with path and body, `c.get`, `c.list`, `c.delete` with path). -/
inductive Ev where
  | log (line : String)
  | post (path body : String)
  | get (path : String)
  | list (path : String)
  | delete (path : String)
deriving DecidableEq

/-- Whether an event is a logger line. -/
def Ev.isLog : Ev → Bool
  | .log _ => true
  | _ => false

/-! ## Data model (`auth.go`)

`time.Duration` fields are their underlying `int64` nanosecond counts. -/

/-- `TokenOptions` (`auth.go` 44–54).  The struct tags, including the
misspelled `omitmempty` on `Period`, are reproduced in
`marshalTokenOptions` below. -/
structure TokenOptions where
  Policies : List String
  NoDefaultPolicy : Bool
  Orphan : Bool
  Renewable : Bool
  DisplayName : String
  MaxUses : ℤ
  TTL : ℤ
  MaxTTL : ℤ
  Period : ℤ
deriving DecidableEq

/-- `CreatedToken` (`auth.go` 64–70). -/
structure CreatedToken where
  ID : String
  Policies : List String
  Metadata : List (String × String)
  LeaseDuration : ℤ
  Renewable : Bool
deriving DecidableEq

/-- The zero value `CreatedToken{}`. -/
def zeroCreatedToken : CreatedToken := ⟨"", [], [], 0, false⟩

/-- Response wrapper `createdToken` (`auth.go` 56–58). -/
structure createdToken where
  Data : CreatedToken

/-- `LookedUpToken` (`auth.go` 96–108). -/
structure LookedUpToken where
  ID : String
  Accessor : String
  CreationTime : ℤ
  CreationTTL : ℤ
  DisplayName : String
  MaxTTL : ℤ
  NumUses : ℤ
  Orphan : Bool
  Path : String
  Policies : List String
  TTL : ℤ
deriving DecidableEq

/-- The zero value `LookedUpToken{}`. -/
def zeroLookedUpToken : LookedUpToken := ⟨"", "", 0, 0, "", 0, 0, false, "", [], 0⟩

/-- Response wrapper `lookedUpTokenWrapper` (`auth.go` 110–112). -/
structure lookedUpTokenWrapper where
  Data : LookedUpToken

/-- Request body struct `lookupToken` (`auth.go` 114–116). -/
structure lookupToken where
  Token : String

/-- `RenewedToken` (`auth.go` 145–151). -/
structure RenewedToken where
  ClientToken : String
  Accessor : String
  Policies : List String
  LeaseDuration : ℤ
  Renewable : Bool
deriving DecidableEq

/-- The zero value `RenewedToken{}`. -/
def zeroRenewedToken : RenewedToken := ⟨"", "", [], 0, false⟩

/-- Response wrapper `wrappedRenewedToken` (`auth.go` 153–155). -/
structure wrappedRenewedToken where
  Auth : RenewedToken

/-- `roles` (`auth.go` 191–193). -/
structure roles where
  Keys : List String

/-- Response wrapper `rolesWrapper` (`auth.go` 187–189). -/
structure rolesWrapper where
  Data : roles

/-- `TokenRoleOptions` (`auth.go` 205–215). -/
structure TokenRoleOptions where
  Name : String
  AllowedPolicies : String
  DisallowedPolicies : String
  Orphan : Bool
  Period : String
  Renewable : Bool
  ExplicitMaxTTL : ℤ
  PathSuffix : String
  BoundCIDRs : List String
deriving DecidableEq

/-- `LookedUpTokenRole` (`auth.go` 236–245). -/
structure LookedUpTokenRole where
  AllowedPolicies : List String
  DisallowedPolicies : List String
  ExplicitMaxTTL : ℤ
  Name : String
  Orphan : Bool
  PathSuffix : String
  Period : ℤ
  Renewable : Bool
deriving DecidableEq

/-- The zero value `LookedUpTokenRole{}`. -/
def zeroLookedUpTokenRole : LookedUpTokenRole := ⟨[], [], 0, "", false, "", 0, false⟩

/-- Response wrapper `lookedUpTokenRoleWrapper` (`auth.go` 232–234). -/
structure lookedUpTokenRoleWrapper where
  Data : LookedUpTokenRole

/-! ## `encoding/json` marshalling of the request structs -/

/-- The fields of `TokenOptions` as `encoding/json` sees them, tag strings
verbatim from `auth.go` 44–54 (note `period,omitmempty`), in declaration
order; `isEmptyValue` is length 0 for slices and strings, `false`, and `0`. -/
def tokenOptionsFields (o : TokenOptions) : List JField := [
  ⟨"policies,omitempty", .arr (o.Policies.map .str), o.Policies.isEmpty⟩,
  ⟨"no_default_policy,omitempty", .bool o.NoDefaultPolicy, !o.NoDefaultPolicy⟩,
  ⟨"no_parent,omitempty", .bool o.Orphan, !o.Orphan⟩,
  ⟨"renewable,omitempty", .bool o.Renewable, !o.Renewable⟩,
  ⟨"display_name,omitempty", .str o.DisplayName, o.DisplayName == ""⟩,
  ⟨"num_uses,omitempty", .int o.MaxUses, o.MaxUses == 0⟩,
  ⟨"ttl,omitempty", .int o.TTL, o.TTL == 0⟩,
  ⟨"explicit_max_ttl,omitempty", .int o.MaxTTL, o.MaxTTL == 0⟩,
  ⟨"period,omitmempty", .int o.Period, o.Period == 0⟩]

/-- `json.Marshal` on `TokenOptions`. -/
def marshalTokenOptions (o : TokenOptions) : Jval :=
  .obj (marshalFields (tokenOptionsFields o))

/-- `json.Marshal` on `lookupToken` (`auth.go` 114–116). -/
def marshalLookupToken (t : lookupToken) : Jval :=
  .obj (marshalFields [⟨"token", .str t.Token, t.Token == ""⟩])

/-- The fields of `TokenRoleOptions` as `encoding/json` sees them, tag
strings verbatim from `auth.go` 205–215 (no `omitempty` anywhere: every
field is always emitted). -/
def tokenRoleOptionsFields (o : TokenRoleOptions) : List JField := [
  ⟨"role_name", .str o.Name, o.Name == ""⟩,
  ⟨"allowed_policies", .str o.AllowedPolicies, o.AllowedPolicies == ""⟩,
  ⟨"disallowed_policies", .str o.DisallowedPolicies, o.DisallowedPolicies == ""⟩,
  ⟨"orphan", .bool o.Orphan, !o.Orphan⟩,
  ⟨"period", .str o.Period, o.Period == ""⟩,
  ⟨"renewable", .bool o.Renewable, !o.Renewable⟩,
  ⟨"explicit_max_ttl", .int o.ExplicitMaxTTL, o.ExplicitMaxTTL == 0⟩,
  ⟨"path_suffix", .str o.PathSuffix, o.PathSuffix == ""⟩,
  ⟨"bound_cidrs", .arr (o.BoundCIDRs.map .str), o.BoundCIDRs.isEmpty⟩]

/-- `json.Marshal` on `TokenRoleOptions`. -/
def marshalTokenRoleOptions (o : TokenRoleOptions) : Jval :=
  .obj (marshalFields (tokenRoleOptionsFields o))

/-- `json.Marshal` never fails on `TokenOptions` (strings, bools, integers,
string slices): the marshaller used by the real `CreateToken` call. -/
def goMarshalTokenOptions (o : TokenOptions) : Except GoErr String :=
  .ok (jsonEncode (marshalTokenOptions o))

/-- `json.Marshal` never fails on `lookupToken`. -/
def goMarshalLookupToken (t : lookupToken) : Except GoErr String :=
  .ok (jsonEncode (marshalLookupToken t))

/-- `json.Marshal` never fails on `TokenRoleOptions`. -/
def goMarshalTokenRoleOptions (o : TokenRoleOptions) : Except GoErr String :=
  .ok (jsonEncode (marshalTokenRoleOptions o))

/-! ## Go string ordering and substring search

Go compares strings byte-lexicographically; UTF-8 encoding preserves
code-point order, so this equals lexicographic order on code points. -/

/-- Lexicographic order on char lists by code point (= Go byte order). -/
def lexLe : List Char → List Char → Bool
  | [], _ => true
  | _ :: _, [] => false
  | a :: as, b :: bs =>
    if a.toNat < b.toNat then true
    else if b.toNat < a.toNat then false
    else lexLe as bs

/-- Go `s <= t` on strings. -/
def strLe (a b : String) : Prop := lexLe a.data b.data = true

instance : DecidableRel strLe := fun a b => by unfold strLe; infer_instance

/-- Whether `pat` occurs at the head of `l`. -/
def leadMatch : List Char → List Char → Bool
  | [], _ => true
  | _ :: _, [] => false
  | a :: as, b :: bs => a == b && leadMatch as bs

/-- Whether `pat` occurs somewhere in `l`. -/
def hasSub (pat : List Char) : List Char → Bool
  | [] => leadMatch pat []
  | c :: t => leadMatch pat (c :: t) || hasSub pat t

/-- Go `strings.Contains(hay, needle)`. -/
def strContains (hay needle : String) : Bool := hasSub needle.data hay.data

/-- `sort.Strings` (`auth.go` 201): sorts ascending.  Go's sort is
unstable, but string order is antisymmetric, so the sorted permutation is
unique and any correct sort computes it; we use insertion sort. -/
def sortStrings (l : List String) : List String := List.insertionSort strLe l

/-! ## `time.Duration.Seconds` and the `int` conversion

`RenewToken`/`RenewSelfToken` compute `int(increment.Seconds())`
(`auth.go` 164, 177).  `Seconds` is
`float64(d/1e9) + float64(d%1e9)/1e9` with Go's truncating (T-)integer
division, computed in IEEE-754 binary64.  All intermediate values here fit
well inside the binary64 exponent range, so binary64 arithmetic is modelled
exactly as: round the real (rational) result to 53 significant bits, round
to nearest, ties to even. -/

/-- Round a rational to the nearest integer, ties to even (IEEE-754
default rounding applied at integer granularity). -/
def roundEven (x : ℚ) : ℤ :=
  if x - ⌊x⌋ < 1/2 then ⌊x⌋
  else if 1/2 < x - ⌊x⌋ then ⌊x⌋ + 1
  else if ⌊x⌋ % 2 = 0 then ⌊x⌋ else ⌊x⌋ + 1

/-- Round a rational to 53 significant bits (binary64 precision), round to
nearest, ties to even; exponent range is unbounded, which is exact for the
magnitudes arising from `Duration.Seconds` (all far from overflow and
underflow). -/
def fl (x : ℚ) : ℚ :=
  if x = 0 then 0
  else if 0 < x then
    (roundEven (x * 2 ^ (52 - Int.log 2 x)) : ℚ) * 2 ^ (Int.log 2 x - 52)
  else
    -((roundEven (-x * 2 ^ (52 - Int.log 2 (-x))) : ℚ) * 2 ^ (Int.log 2 (-x) - 52))

/-- Go conversion `float64(n)` of an `int64` (exact iff `|n| < 2^53`;
rounded otherwise, which never occurs in the ranges used here). -/
def float64OfInt (n : ℤ) : ℚ := fl (n : ℚ)

/-- Go conversion `int(x)` of a `float64` whose value is in `int64` range:
truncation toward zero. -/
def truncQ (x : ℚ) : ℤ := if 0 ≤ x then ⌊x⌋ else ⌈x⌉

/-- `d.Seconds()` for `d : time.Duration` (Go `time` package):
`sec := d / Second; nsec := d % Second; float64(sec) + float64(nsec)/1e9`,
each operation in binary64. -/
def durationSeconds (d : ℤ) : ℚ :=
  fl (float64OfInt (d.tdiv 1000000000) +
      fl (float64OfInt (d.tmod 1000000000) / float64OfInt 1000000000))

/-- `int(increment.Seconds())` as computed at `auth.go` 164 and 177. -/
def durationSecondsInt (d : ℤ) : ℤ := truncQ (durationSeconds d)

/-- `strconv.Itoa` on the (64-bit) `int` above. -/
def itoa (n : ℤ) : String := toString n

/-- Modelled from the spec: `fixup` (repository code outside `auth.go`)
joins the base path and sub-path and appends the key/value pair as a query
parameter, producing paths of the shape
`/v1/auth/token/renew?increment=<seconds>` (spec §4.1, §6). -/
def fixup (base sub : String) (param : String × String) : String :=
  base ++ "/" ++ sub ++ "?" ++ param.1 ++ "=" ++ param.2

/-! ## The operations (`client` methods of `auth.go`)

Each operation takes the outcome-deciding collaborators as parameters:
the marshaller (instantiated with the real `goMarshal…` where a claim is
about the actual request) and the transport verb, which maps the request
(path, and body for `post`) to either a transport error or the value the
response was decoded into.  Results are the Go return values paired with
the ordered list of observable events. -/

/-- `CreateToken` (`auth.go` 72–91). -/
def CreateToken (jsonMarshal : TokenOptions → Except GoErr String)
    (opts : TokenOptions)
    (post : String → String → Except GoErr createdToken) :
    (CreatedToken × Option GoErr) × List Ev :=
  match jsonMarshal opts with
  | .error err => ((zeroCreatedToken, some err), [])
  | .ok bs =>
    let logLine := "token create request: " ++ bs
    let path := "/v1/auth/token/create"
    match post path bs with
    | .error e => ((zeroCreatedToken, some e), [.log logLine, .post path bs])
    | .ok ct =>
      if ct.Data.ID = "" then
        ((zeroCreatedToken, some "create token returned empty id"),
         [.log logLine, .post path bs])
      else
        ((ct.Data, none), [.log logLine, .post path bs])

/-- `LookupToken` (`auth.go` 118–131). -/
def LookupToken (jsonMarshal : lookupToken → Except GoErr String)
    (id : String)
    (post : String → String → Except GoErr lookedUpTokenWrapper) :
    (LookedUpToken × Option GoErr) × List Ev :=
  match jsonMarshal ⟨id⟩ with
  | .error err => ((zeroLookedUpToken, some err), [])
  | .ok bs =>
    let path := "/v1/auth/token/lookup"
    match post path bs with
    | .error e =>
      ((zeroLookedUpToken, some (errWrap "failed to lookup token" e)),
       [.post path bs])
    | .ok tok => ((tok.Data, none), [.post path bs])

/-- `LookupSelfToken` (`auth.go` 133–140). -/
def LookupSelfToken (get : String → Except GoErr lookedUpTokenWrapper) :
    (LookedUpToken × Option GoErr) × List Ev :=
  let path := "/v1/auth/token/lookup-self"
  match get path with
  | .error e =>
    ((zeroLookedUpToken, some (errWrap "failed to lookup self token" e)),
     [.get path])
  | .ok tok => ((tok.Data, none), [.get path])

/-- `RenewToken` (`auth.go` 157–172). -/
def RenewToken (jsonMarshal : lookupToken → Except GoErr String)
    (id : String) (increment : ℤ)
    (post : String → String → Except GoErr wrappedRenewedToken) :
    (RenewedToken × Option GoErr) × List Ev :=
  match jsonMarshal ⟨id⟩ with
  | .error err => ((zeroRenewedToken, some err), [])
  | .ok bs =>
    let inc := itoa (durationSecondsInt increment)
    let path := fixup "/v1/auth" "token/renew" ("increment", inc)
    match post path bs with
    | .error e =>
      ((zeroRenewedToken, some (errWrap "failed to renew token" e)),
       [.post path bs])
    | .ok tok => ((tok.Auth, none), [.post path bs])

/-- `RenewSelfToken` (`auth.go` 174–185). -/
def RenewSelfToken (increment : ℤ)
    (post : String → String → Except GoErr wrappedRenewedToken) :
    (RenewedToken × Option GoErr) × List Ev :=
  let inc := itoa (durationSecondsInt increment)
  let path := fixup "/v1/auth" "token/renew-self" ("increment", inc)
  match post path "" with
  | .error e =>
    ((zeroRenewedToken, some (errWrap "failed to self-renew token" e)),
     [.post path ""])
  | .ok tok => ((tok.Auth, none), [.post path ""])

/-- `ListTokenRoles` (`auth.go` 195–203).  The returned slice is `none`
(Go `nil`) on error. -/
def ListTokenRoles (listVerb : String → Except GoErr rolesWrapper) :
    (Option (List String) × Option GoErr) × List Ev :=
  let requestPath := "/v1/auth/token/roles"
  match listVerb requestPath with
  | .error e =>
    ((none, some (errWrap ("failed to list token roles at " ++ goQuote requestPath) e)),
     [.list requestPath])
  | .ok w => ((some (sortStrings w.Data.Keys), none), [.list requestPath])

/-- `CreateTokenRole` (`auth.go` 217–230). -/
def CreateTokenRole (jsonMarshal : TokenRoleOptions → Except GoErr String)
    (roleData : TokenRoleOptions)
    (post : String → String → Except GoErr Unit) :
    Option GoErr × List Ev :=
  match jsonMarshal roleData with
  | .error err => (some (errWrap "marshalling role data to JSON request body" err), [])
  | .ok bs =>
    let logLine := "role-create request: " ++ bs
    let requestPath := "/v1/auth/token/roles/" ++ roleData.Name
    match post requestPath bs with
    | .error e =>
      (some (errWrap ("creating role at " ++ goQuote requestPath) e),
       [.log logLine, .post requestPath bs])
    | .ok _ => (none, [.log logLine, .post requestPath bs])

/-- `LookupTokenRole` (`auth.go` 247–254). -/
def LookupTokenRole (name : String)
    (get : String → Except GoErr lookedUpTokenRoleWrapper) :
    (LookedUpTokenRole × Option GoErr) × List Ev :=
  let requestPath := "/v1/auth/token/roles/" ++ name
  match get requestPath with
  | .error e =>
    ((zeroLookedUpTokenRole, some (errWrap "failed to look up role" e)),
     [.get requestPath])
  | .ok w => ((w.Data, none), [.get requestPath])

/-- `DeleteTokenRole` (`auth.go` 256–262). -/
def DeleteTokenRole (name : String)
    (del : String → Option GoErr) :
    Option GoErr × List Ev :=
  let requestPath := "/v1/auth/token/roles/" ++ name
  match del requestPath with
  | some e =>
    (some (errWrap ("failed to delete role " ++ goQuote name) e), [.delete requestPath])
  | none => (none, [.delete requestPath])

/-! ## `encoding/json` unmarshalling back into `TokenOptions`

Used to state the round-trip law (spec §8).  Decoding is modelled at the
JSON-value level on the output of the marshaller above; `json.Unmarshal`
on a struct matches keys to field tag names (our keys are emitted exactly,
so the case-insensitive fallback never fires), ignores unknown keys, leaves
absent fields at their zero value, and rejects type mismatches. -/

/-- Decode a JSON string. -/
def getStr : Jval → Option String
  | .str s => some s
  | _ => none

/-- Decode a JSON boolean. -/
def getBool : Jval → Option Bool
  | .bool b => some b
  | _ => none

/-- Decode a JSON integer (into `int`/`int64`/`time.Duration`). -/
def getInt : Jval → Option ℤ
  | .int n => some n
  | _ => none

/-- Decode a list of JSON values into strings (all-or-nothing). -/
def getStrs : List Jval → Option (List String)
  | [] => some []
  | v :: t =>
    match getStr v, getStrs t with
    | some s, some r => some (s :: r)
    | _, _ => none

/-- Decode a JSON array of strings into a `[]string` (JSON `null` leaves
the slice nil). -/
def getStrList : Jval → Option (List String)
  | .arr xs => getStrs xs
  | .null => some []
  | _ => none

/-- Decode one struct field: absent keys keep the zero value `dflt`. -/
def decodeField {α : Type} (fs : List (String × Jval)) (name : String)
    (dec : Jval → Option α) (dflt : α) : Option α :=
  match lookupField name fs with
  | none => some dflt
  | some v => dec v

/-- `json.Unmarshal` of an object into `TokenOptions` (tag names as in
`auth.go` 44–54; the `Period` key is `period`). -/
def decodeTokenOptions : Jval → Option TokenOptions
  | .obj fs => do
    let policies ← decodeField fs "policies" getStrList []
    let noDefaultPolicy ← decodeField fs "no_default_policy" getBool false
    let orphan ← decodeField fs "no_parent" getBool false
    let renewable ← decodeField fs "renewable" getBool false
    let displayName ← decodeField fs "display_name" getStr ""
    let maxUses ← decodeField fs "num_uses" getInt 0
    let ttl ← decodeField fs "ttl" getInt 0
    let maxTTL ← decodeField fs "explicit_max_ttl" getInt 0
    let period ← decodeField fs "period" getInt 0
    pure ⟨policies, noDefaultPolicy, orphan, renewable, displayName,
          maxUses, ttl, maxTTL, period⟩
  | _ => none

/-! ## Order-theoretic facts about the Go string order -/

theorem lexLe_total : ∀ a b : List Char, lexLe a b = true ∨ lexLe b a = true
  | [], _ => .inl rfl
  | _ :: _, [] => .inr rfl
  | a :: as, b :: bs => by
    rcases Nat.lt_trichotomy a.toNat b.toNat with h | h | h
    · left; simp [lexLe, h]
    · rcases lexLe_total as bs with ih | ih
      · left; simp [lexLe, h, Nat.lt_irrefl, ih]
      · right; simp [lexLe, h.symm, Nat.lt_irrefl, ih]
    · right; simp [lexLe, h]

theorem lexLe_trans : ∀ {a b c : List Char},
    lexLe a b = true → lexLe b c = true → lexLe a c = true
  | [], _, _, _, _ => rfl
  | _ :: _, [], _, hab, _ => by simp [lexLe] at hab
  | _ :: _, _ :: _, [], _, hbc => by simp [lexLe] at hbc
  | a :: as, b :: bs, c :: cs, hab, hbc => by
    by_cases h1 : a.toNat < b.toNat <;> by_cases h2 : b.toNat < c.toNat
    · simp [lexLe, Nat.lt_trans h1 h2]
    · rcases Nat.lt_or_ge b.toNat c.toNat with h | h
      · exact absurd h h2
      rcases Nat.eq_or_lt_of_le h with h | h
      · simp [lexLe, h ▸ h1]
      · simp [lexLe, h2, h] at hbc
    · rcases Nat.lt_or_ge a.toNat b.toNat with h | h
      · exact absurd h h1
      rcases Nat.eq_or_lt_of_le h with h | h
      · simp [lexLe, h.symm ▸ h2]
      · simp [lexLe, h1, h] at hab
    · have hab' : a.toNat = b.toNat ∧ lexLe as bs = true := by
        rcases Nat.lt_trichotomy a.toNat b.toNat with h | h | h
        · exact absurd h h1
        · simpa [lexLe, h, Nat.lt_irrefl] using And.intro h hab
        · simp [lexLe, h1, h] at hab
      have hbc' : b.toNat = c.toNat ∧ lexLe bs cs = true := by
        rcases Nat.lt_trichotomy b.toNat c.toNat with h | h | h
        · exact absurd h h2
        · simpa [lexLe, h, Nat.lt_irrefl] using And.intro h hbc
        · simp [lexLe, h2, h] at hbc
      simp [lexLe, hab'.1, hbc'.1, Nat.lt_irrefl, lexLe_trans hab'.2 hbc'.2]

/-! ## Claim theorems -/

/-- Claim C1: for every `TokenOptions` input, if the transport call of
`CreateToken` succeeds but the decoded response's `ID` is the empty string,
`CreateToken` returns the error "create token returned empty id" and the
zero `CreatedToken`; otherwise (transport success, non-empty `ID`) it
returns the decoded `CreatedToken`, whose `ID` is non-empty, and no error. -/
theorem createToken_empty_id_guard
    (opts : TokenOptions) (post : String → String → Except GoErr createdToken)
    (ct : createdToken)
    (hpost : post "/v1/auth/token/create" (jsonEncode (marshalTokenOptions opts)) = .ok ct) :
    (ct.Data.ID = "" →
      (CreateToken goMarshalTokenOptions opts post).1 =
        (zeroCreatedToken, some "create token returned empty id")) ∧
    (ct.Data.ID ≠ "" →
      (CreateToken goMarshalTokenOptions opts post).1 = (ct.Data, none) ∧
      (CreateToken goMarshalTokenOptions opts post).1.1.ID ≠ "") := by
  constructor
  · intro hid
    simp [CreateToken, goMarshalTokenOptions, hpost, hid]
  · intro hid
    simp [CreateToken, goMarshalTokenOptions, hpost, hid]

/-- Witness for C1 at a concrete input: server replies with an empty id. -/
theorem createToken_empty_id_guard_witness :
    (CreateToken goMarshalTokenOptions ⟨[], false, false, false, "", 0, 0, 0, 0⟩
      (fun _ _ => .ok ⟨⟨"", [], [], 0, false⟩⟩)).1 =
      (zeroCreatedToken, some "create token returned empty id") :=
  (createToken_empty_id_guard ⟨[], false, false, false, "", 0, 0, 0, 0⟩
    (fun _ _ => .ok ⟨⟨"", [], [], 0, false⟩⟩) ⟨⟨"", [], [], 0, false⟩⟩ rfl).1 rfl

/-- Claim C3: `ListTokenRoles` returns the server's keys sorted ascending
(lexicographically, i.e. Go byte order): the output is a sorted permutation
of the keys, a function of the key set alone; e.g. server order
`["c","a","b"]` yields `["a","b","c"]`. -/
theorem listTokenRoles_sorted :
    (∀ keys : List String,
      (ListTokenRoles (fun _ => .ok ⟨⟨keys⟩⟩)).1 = (some (sortStrings keys), none) ∧
      (sortStrings keys).Sorted strLe ∧
      (sortStrings keys).Perm keys) ∧
    sortStrings ["c", "a", "b"] = ["a", "b", "c"] := by
  constructor
  · intro keys
    haveI : IsTotal String strLe := ⟨fun a b => lexLe_total a.data b.data⟩
    haveI : IsTrans String strLe := ⟨fun _ _ _ => lexLe_trans⟩
    exact ⟨rfl, List.sorted_insertionSort strLe keys, List.perm_insertionSort strLe keys⟩
  · decide

/-- Counterexample to C4 as stated: for the token id `"failed"` and the
transport error `"boom"` (which does not contain the id), the error message
returned by `LookupToken` does contain the queried id as a substring. -/
theorem lookup_error_contains_id :
    (LookupToken goMarshalLookupToken "failed" (fun _ _ => .error "boom")).1.2 =
      some "failed to lookup token: boom" ∧
    strContains "failed to lookup token: boom" "failed" = true ∧
    strContains "boom" "failed" = false := by
  refine ⟨rfl, by decide, by decide⟩

/-- Claim C4, amended: on a transport failure, the error returned by
`LookupToken` is the fixed wrapper `"failed to lookup token: "` applied to
the transport error, and by `LookupSelfToken` the fixed wrapper
`"failed to lookup self token: "`; the message does not depend on the
queried token id (it is the same expression for every `id`), so the id
never reaches the message other than by coincidental overlap with that
id-independent text. -/
theorem lookup_error_fixed_wrapping (id : String) (e : GoErr) :
    (LookupToken goMarshalLookupToken id (fun _ _ => .error e)).1 =
      (zeroLookedUpToken, some ("failed to lookup token: " ++ e)) ∧
    (LookupSelfToken (fun _ => .error e)).1 =
      (zeroLookedUpToken, some ("failed to lookup self token: " ++ e)) :=
  ⟨rfl, rfl⟩

/-- Counterexample to C5 as stated: `CreateTokenRole` does not return the
marshal error unwrapped; it wraps it with
"marshalling role data to JSON request body". -/
theorem createTokenRole_marshal_error_wrapped :
    (CreateTokenRole (fun _ => .error "boom")
        ⟨"", "", "", false, "", false, 0, "", []⟩ (fun _ _ => .ok ())).1 =
      some "marshalling role data to JSON request body: boom" ∧
    some "marshalling role data to JSON request body: boom" ≠ some ("boom" : GoErr) := by
  refine ⟨rfl, by decide⟩

/-- Claim C5, amended: when JSON marshalling of the input fails, the error
is surfaced immediately (no transport call, no log) by every
body-serializing operation; `CreateToken`, `LookupToken` and `RenewToken`
return the marshal error unwrapped, while `CreateTokenRole` returns it
wrapped with the fixed text "marshalling role data to JSON request body". -/
theorem marshal_error_propagation (e : GoErr) (opts : TokenOptions) (id : String)
    (incr : ℤ) (roleData : TokenRoleOptions)
    (post₁ : String → String → Except GoErr createdToken)
    (post₂ : String → String → Except GoErr lookedUpTokenWrapper)
    (post₃ : String → String → Except GoErr wrappedRenewedToken)
    (post₄ : String → String → Except GoErr Unit) :
    CreateToken (fun _ => .error e) opts post₁ = ((zeroCreatedToken, some e), []) ∧
    LookupToken (fun _ => .error e) id post₂ = ((zeroLookedUpToken, some e), []) ∧
    RenewToken (fun _ => .error e) id incr post₃ = ((zeroRenewedToken, some e), []) ∧
    CreateTokenRole (fun _ => .error e) roleData post₄ =
      (some ("marshalling role data to JSON request body: " ++ e), []) :=
  ⟨rfl, rfl, rfl, rfl⟩

/-- Counterexample to C6 as stated: `LookupToken` sends a JSON request body
but logs nothing (its event trace contains no log event). -/
theorem lookupToken_does_not_log :
    (LookupToken goMarshalLookupToken "t" (fun _ _ => .ok ⟨zeroLookedUpToken⟩)).2 =
      [Ev.post "/v1/auth/token/lookup" "\x7b\"token\":\"t\"\x7d"] ∧
    ((LookupToken goMarshalLookupToken "t" (fun _ _ => .ok ⟨zeroLookedUpToken⟩)).2.filter
        Ev.isLog) = [] := by
  refine ⟨by decide, by decide⟩

/-- Claim C6, amended: of the operations that send a JSON request body,
`CreateToken` and `CreateTokenRole` log the exact serialized body (inside a
fixed-prefix logger line) before issuing the POST, while `LookupToken` and
`RenewToken` issue their POST without logging the body. -/
theorem request_logging (opts : TokenOptions) (roleData : TokenRoleOptions)
    (id : String) (incr : ℤ)
    (post₁ : String → String → Except GoErr createdToken)
    (post₂ : String → String → Except GoErr Unit)
    (post₃ : String → String → Except GoErr lookedUpTokenWrapper)
    (post₄ : String → String → Except GoErr wrappedRenewedToken) :
    (CreateToken goMarshalTokenOptions opts post₁).2 =
      [.log ("token create request: " ++ jsonEncode (marshalTokenOptions opts)),
       .post "/v1/auth/token/create" (jsonEncode (marshalTokenOptions opts))] ∧
    (CreateTokenRole goMarshalTokenRoleOptions roleData post₂).2 =
      [.log ("role-create request: " ++ jsonEncode (marshalTokenRoleOptions roleData)),
       .post ("/v1/auth/token/roles/" ++ roleData.Name)
         (jsonEncode (marshalTokenRoleOptions roleData))] ∧
    (LookupToken goMarshalLookupToken id post₃).2 =
      [.post "/v1/auth/token/lookup" (jsonEncode (marshalLookupToken ⟨id⟩))] ∧
    (RenewToken goMarshalLookupToken id incr post₄).2 =
      [.post (fixup "/v1/auth" "token/renew"
          ("increment", itoa (durationSecondsInt incr)))
        (jsonEncode (marshalLookupToken ⟨id⟩))] := by
  refine ⟨?_, ?_, ?_, ?_⟩
  · rcases h : post₁ "/v1/auth/token/create"
        (jsonEncode (marshalTokenOptions opts)) with e | ct
    · simp [CreateToken, goMarshalTokenOptions, h]
    · by_cases hid : ct.Data.ID = "" <;>
        simp [CreateToken, goMarshalTokenOptions, h, hid]
  · rcases h : post₂ ("/v1/auth/token/roles/" ++ roleData.Name)
        (jsonEncode (marshalTokenRoleOptions roleData)) with e | u <;>
      simp [CreateTokenRole, goMarshalTokenRoleOptions, h]
  · rcases h : post₃ "/v1/auth/token/lookup"
        (jsonEncode (marshalLookupToken ⟨id⟩)) with e | tok <;>
      simp [LookupToken, goMarshalLookupToken, h]
  · rcases h : post₄ (fixup "/v1/auth" "token/renew"
          ("increment", itoa (durationSecondsInt incr)))
        (jsonEncode (marshalLookupToken ⟨id⟩)) with e | tok <;>
      simp [RenewToken, goMarshalLookupToken, h]

/-- Claim C9: whenever an operation returns a non-nil error, the
accompanying result is exactly the zero value of its type (stated as:
either the result is the zero value, or the error is nil); `ListTokenRoles`
returns a nil slice on error. -/
theorem zero_result_on_error :
    (∀ (m : TokenOptions → Except GoErr String) opts post,
      (CreateToken m opts post).1.1 = zeroCreatedToken ∨
      (CreateToken m opts post).1.2 = none) ∧
    (∀ (m : lookupToken → Except GoErr String) id post,
      (LookupToken m id post).1.1 = zeroLookedUpToken ∨
      (LookupToken m id post).1.2 = none) ∧
    (∀ get, (LookupSelfToken get).1.1 = zeroLookedUpToken ∨
      (LookupSelfToken get).1.2 = none) ∧
    (∀ (m : lookupToken → Except GoErr String) id incr post,
      (RenewToken m id incr post).1.1 = zeroRenewedToken ∨
      (RenewToken m id incr post).1.2 = none) ∧
    (∀ incr post, (RenewSelfToken incr post).1.1 = zeroRenewedToken ∨
      (RenewSelfToken incr post).1.2 = none) ∧
    (∀ name get, (LookupTokenRole name get).1.1 = zeroLookedUpTokenRole ∨
      (LookupTokenRole name get).1.2 = none) ∧
    (∀ lv, (ListTokenRoles lv).1.1 = none ∨ (ListTokenRoles lv).1.2 = none) := by
  refine ⟨?_, ?_, ?_, ?_, ?_, ?_, ?_⟩
  · intro m opts post
    rcases hm : m opts with e | bs
    · simp [CreateToken, hm]
    · rcases hp : post "/v1/auth/token/create" bs with e | ct
      · simp [CreateToken, hm, hp]
      · by_cases hid : ct.Data.ID = "" <;> simp [CreateToken, hm, hp, hid]
  · intro m id post
    rcases hm : m ⟨id⟩ with e | bs
    · simp [LookupToken, hm]
    · rcases hp : post "/v1/auth/token/lookup" bs with e | tok <;>
        simp [LookupToken, hm, hp]
  · intro get
    rcases hg : get "/v1/auth/token/lookup-self" with e | tok <;>
      simp [LookupSelfToken, hg]
  · intro m id incr post
    rcases hm : m ⟨id⟩ with e | bs
    · simp [RenewToken, hm]
    · rcases hp : post (fixup "/v1/auth" "token/renew"
          ("increment", itoa (durationSecondsInt incr))) bs with e | tok <;>
        simp [RenewToken, hm, hp]
  · intro incr post
    rcases hp : post (fixup "/v1/auth" "token/renew-self"
        ("increment", itoa (durationSecondsInt incr))) "" with e | tok <;>
      simp [RenewSelfToken, hp]
  · intro name get
    rcases hg : get ("/v1/auth/token/roles/" ++ name) with e | w <;>
      simp [LookupTokenRole, hg]
  · intro lv
    rcases hl : lv "/v1/auth/token/roles" with e | w <;>
      simp [ListTokenRoles, hl]

/-! ## Field lookup in marshalled objects -/

@[simp]
theorem marshalFields_nil : marshalFields [] = [] := rfl

theorem marshalFields_cons (f : JField) (fs : List JField) :
    marshalFields (f :: fs) =
      if (tagHasOmitEmpty f.tag && f.isEmpty) = true then marshalFields fs
      else (jsonFieldName f.tag, f.value) :: marshalFields fs := by
  cases hc : (tagHasOmitEmpty f.tag && f.isEmpty)
  · have h2 : tagHasOmitEmpty f.tag = false ∨ f.isEmpty = false := by
      cases h1 : tagHasOmitEmpty f.tag
      · exact .inl rfl
      · cases h3 : f.isEmpty
        · exact .inr rfl
        · rw [h1, h3] at hc
          exact absurd hc (by decide)
    simp [marshalFields, List.filter_cons, hc, h2]
  · have h2 : ¬(tagHasOmitEmpty f.tag = false ∨ f.isEmpty = false) := by
      have := (Bool.and_eq_true _ _).mp hc
      rintro (h | h) <;> simp [h] at this
    simp [marshalFields, List.filter_cons, hc, h2]

@[simp]
theorem lookupField_nil (name : String) : lookupField name [] = none := rfl

@[simp]
theorem lookupField_marshal_cons (name : String) (f : JField) (fs : List JField) :
    lookupField name (marshalFields (f :: fs)) =
      if (tagHasOmitEmpty f.tag && f.isEmpty) = true then
        lookupField name (marshalFields fs)
      else if jsonFieldName f.tag = name then some f.value
      else lookupField name (marshalFields fs) := by
  rw [marshalFields_cons]
  split
  · rfl
  · by_cases hn : jsonFieldName f.tag = name <;> simp [lookupField, hn]

@[simp]
theorem tagName_policies : jsonFieldName "policies,omitempty" = "policies" := by decide

@[simp]
theorem tagName_no_default_policy :
    jsonFieldName "no_default_policy,omitempty" = "no_default_policy" := by decide

@[simp]
theorem tagName_no_parent : jsonFieldName "no_parent,omitempty" = "no_parent" := by decide

@[simp]
theorem tagName_renewable : jsonFieldName "renewable,omitempty" = "renewable" := by decide

@[simp]
theorem tagName_display_name :
    jsonFieldName "display_name,omitempty" = "display_name" := by decide

@[simp]
theorem tagName_num_uses : jsonFieldName "num_uses,omitempty" = "num_uses" := by decide

@[simp]
theorem tagName_ttl : jsonFieldName "ttl,omitempty" = "ttl" := by decide

@[simp]
theorem tagName_explicit_max_ttl :
    jsonFieldName "explicit_max_ttl,omitempty" = "explicit_max_ttl" := by decide

@[simp]
theorem tagName_period : jsonFieldName "period,omitmempty" = "period" := by decide

@[simp]
theorem tagOmit_policies : tagHasOmitEmpty "policies,omitempty" = true := by decide

@[simp]
theorem tagOmit_no_default_policy :
    tagHasOmitEmpty "no_default_policy,omitempty" = true := by decide

@[simp]
theorem tagOmit_no_parent : tagHasOmitEmpty "no_parent,omitempty" = true := by decide

@[simp]
theorem tagOmit_renewable : tagHasOmitEmpty "renewable,omitempty" = true := by decide

@[simp]
theorem tagOmit_display_name : tagHasOmitEmpty "display_name,omitempty" = true := by decide

@[simp]
theorem tagOmit_num_uses : tagHasOmitEmpty "num_uses,omitempty" = true := by decide

@[simp]
theorem tagOmit_ttl : tagHasOmitEmpty "ttl,omitempty" = true := by decide

@[simp]
theorem tagOmit_explicit_max_ttl :
    tagHasOmitEmpty "explicit_max_ttl,omitempty" = true := by decide

/-- The misspelled tag option `omitmempty` on `Period` (`auth.go` 53) is not
the option `omitempty`, so `encoding/json` ignores it. -/
@[simp]
theorem tagOmit_period : tagHasOmitEmpty "period,omitmempty" = false := by decide

@[simp]
theorem tagName_role_name : jsonFieldName "role_name" = "role_name" := by decide

@[simp]
theorem tagOmit_role_name : tagHasOmitEmpty "role_name" = false := by decide

theorem lookupTO_policies (o : TokenOptions) :
    lookupField "policies" (marshalFields (tokenOptionsFields o)) =
      if o.Policies = [] then none else some (.arr (o.Policies.map .str)) := by
  simp [tokenOptionsFields]

theorem lookupTO_no_default_policy (o : TokenOptions) :
    lookupField "no_default_policy" (marshalFields (tokenOptionsFields o)) =
      if o.NoDefaultPolicy = false then none else some (.bool o.NoDefaultPolicy) := by
  simp [tokenOptionsFields]

theorem lookupTO_no_parent (o : TokenOptions) :
    lookupField "no_parent" (marshalFields (tokenOptionsFields o)) =
      if o.Orphan = false then none else some (.bool o.Orphan) := by
  simp [tokenOptionsFields]

theorem lookupTO_renewable (o : TokenOptions) :
    lookupField "renewable" (marshalFields (tokenOptionsFields o)) =
      if o.Renewable = false then none else some (.bool o.Renewable) := by
  simp [tokenOptionsFields]

theorem lookupTO_display_name (o : TokenOptions) :
    lookupField "display_name" (marshalFields (tokenOptionsFields o)) =
      if o.DisplayName = "" then none else some (.str o.DisplayName) := by
  simp [tokenOptionsFields]

theorem lookupTO_num_uses (o : TokenOptions) :
    lookupField "num_uses" (marshalFields (tokenOptionsFields o)) =
      if o.MaxUses = 0 then none else some (.int o.MaxUses) := by
  simp [tokenOptionsFields]

theorem lookupTO_ttl (o : TokenOptions) :
    lookupField "ttl" (marshalFields (tokenOptionsFields o)) =
      if o.TTL = 0 then none else some (.int o.TTL) := by
  simp [tokenOptionsFields]

theorem lookupTO_explicit_max_ttl (o : TokenOptions) :
    lookupField "explicit_max_ttl" (marshalFields (tokenOptionsFields o)) =
      if o.MaxTTL = 0 then none else some (.int o.MaxTTL) := by
  simp [tokenOptionsFields]

/-- Because the tag option is misspelled (`omitmempty`), the `period` key is
present for every value of `Period`, including zero. -/
theorem lookupTO_period (o : TokenOptions) :
    lookupField "period" (marshalFields (tokenOptionsFields o)) =
      some (.int o.Period) := by
  simp [tokenOptionsFields]

theorem lookupTRO_role_name (o : TokenRoleOptions) :
    lookupField "role_name" (marshalFields (tokenRoleOptionsFields o)) =
      some (.str o.Name) := by
  simp [tokenRoleOptionsFields]

/-! ## Decoding the marshalled object (round trip) -/

theorem getStrs_map (l : List String) :
    getStrs (l.map Jval.str) = some l := by
  induction l with
  | nil => rfl
  | cons a t ih => simp [getStrs, getStr, ih]

theorem decodeTO_policies (o : TokenOptions) :
    decodeField (marshalFields (tokenOptionsFields o)) "policies" getStrList [] =
      some o.Policies := by
  unfold decodeField
  rw [lookupTO_policies]
  by_cases h : o.Policies = [] <;> simp [h, getStrList, getStrs_map]

theorem decodeTO_no_default_policy (o : TokenOptions) :
    decodeField (marshalFields (tokenOptionsFields o)) "no_default_policy" getBool false =
      some o.NoDefaultPolicy := by
  unfold decodeField
  rw [lookupTO_no_default_policy]
  cases h : o.NoDefaultPolicy <;> simp [h, getBool]

theorem decodeTO_no_parent (o : TokenOptions) :
    decodeField (marshalFields (tokenOptionsFields o)) "no_parent" getBool false =
      some o.Orphan := by
  unfold decodeField
  rw [lookupTO_no_parent]
  cases h : o.Orphan <;> simp [h, getBool]

theorem decodeTO_renewable (o : TokenOptions) :
    decodeField (marshalFields (tokenOptionsFields o)) "renewable" getBool false =
      some o.Renewable := by
  unfold decodeField
  rw [lookupTO_renewable]
  cases h : o.Renewable <;> simp [h, getBool]

theorem decodeTO_display_name (o : TokenOptions) :
    decodeField (marshalFields (tokenOptionsFields o)) "display_name" getStr "" =
      some o.DisplayName := by
  unfold decodeField
  rw [lookupTO_display_name]
  by_cases h : o.DisplayName = "" <;> simp [h, getStr]

theorem decodeTO_num_uses (o : TokenOptions) :
    decodeField (marshalFields (tokenOptionsFields o)) "num_uses" getInt 0 =
      some o.MaxUses := by
  unfold decodeField
  rw [lookupTO_num_uses]
  by_cases h : o.MaxUses = 0 <;> simp [h, getInt]

theorem decodeTO_ttl (o : TokenOptions) :
    decodeField (marshalFields (tokenOptionsFields o)) "ttl" getInt 0 =
      some o.TTL := by
  unfold decodeField
  rw [lookupTO_ttl]
  by_cases h : o.TTL = 0 <;> simp [h, getInt]

theorem decodeTO_explicit_max_ttl (o : TokenOptions) :
    decodeField (marshalFields (tokenOptionsFields o)) "explicit_max_ttl" getInt 0 =
      some o.MaxTTL := by
  unfold decodeField
  rw [lookupTO_explicit_max_ttl]
  by_cases h : o.MaxTTL = 0 <;> simp [h, getInt]

theorem decodeTO_period (o : TokenOptions) :
    decodeField (marshalFields (tokenOptionsFields o)) "period" getInt 0 =
      some o.Period := by
  unfold decodeField
  rw [lookupTO_period]
  simp [getInt]

theorem decode_marshal_tokenOptions (o : TokenOptions) :
    decodeTokenOptions (marshalTokenOptions o) = some o := by
  simp [marshalTokenOptions, decodeTokenOptions,
    decodeTO_policies, decodeTO_no_default_policy, decodeTO_no_parent,
    decodeTO_renewable, decodeTO_display_name, decodeTO_num_uses,
    decodeTO_ttl, decodeTO_explicit_max_ttl, decodeTO_period]

/-- Claim C7: for every `TokenRoleOptions`, `CreateTokenRole` POSTs to
`/v1/auth/token/roles/<Name>` and the serialized body's `role_name` member
is that same `Name`: path segment and body field both come from the single
`Name` source field. -/
theorem createTokenRole_path_and_body (data : TokenRoleOptions)
    (post : String → String → Except GoErr Unit) :
    (CreateTokenRole goMarshalTokenRoleOptions data post).2 =
      [.log ("role-create request: " ++ jsonEncode (marshalTokenRoleOptions data)),
       .post ("/v1/auth/token/roles/" ++ data.Name)
         (jsonEncode (marshalTokenRoleOptions data))] ∧
    lookupField "role_name" (marshalFields (tokenRoleOptionsFields data)) =
      some (.str data.Name) := by
  constructor
  · rcases h : post ("/v1/auth/token/roles/" ++ data.Name)
        (jsonEncode (marshalTokenRoleOptions data)) with e | u <;>
      simp [CreateTokenRole, goMarshalTokenRoleOptions, h]
  · exact lookupTRO_role_name data

/-- Claim C8: the JSON body `CreateToken` posts to `/v1/auth/token/create`
is the marshalled `TokenOptions`, and decoding that body back into
`TokenOptions` yields exactly the original value (round-trip law). -/
theorem createToken_body_roundtrip (opts : TokenOptions)
    (post : String → String → Except GoErr createdToken) :
    (CreateToken goMarshalTokenOptions opts post).2 =
      [.log ("token create request: " ++ jsonEncode (marshalTokenOptions opts)),
       .post "/v1/auth/token/create" (jsonEncode (marshalTokenOptions opts))] ∧
    decodeTokenOptions (marshalTokenOptions opts) = some opts := by
  constructor
  · rcases h : post "/v1/auth/token/create"
        (jsonEncode (marshalTokenOptions opts)) with e | ct
    · simp [CreateToken, goMarshalTokenOptions, h]
    · by_cases hid : ct.Data.ID = "" <;>
        simp [CreateToken, goMarshalTokenOptions, h, hid]
  · exact decode_marshal_tokenOptions opts

/-- Claim C10: in the body `CreateToken` serializes, the `period` member is
always present, even when `Period` is zero, because its tag misspells the
option (`omitmempty`), which `encoding/json` ignores; every other
`TokenOptions` field carries a valid `omitempty` option and is omitted
exactly when its value is the zero value. -/
theorem period_always_emitted (o : TokenOptions) :
    tagHasOmitEmpty "period,omitmempty" = false ∧
    lookupField "period" (marshalFields (tokenOptionsFields o)) = some (.int o.Period) ∧
    (tagHasOmitEmpty "policies,omitempty" = true ∧
     tagHasOmitEmpty "no_default_policy,omitempty" = true ∧
     tagHasOmitEmpty "no_parent,omitempty" = true ∧
     tagHasOmitEmpty "renewable,omitempty" = true ∧
     tagHasOmitEmpty "display_name,omitempty" = true ∧
     tagHasOmitEmpty "num_uses,omitempty" = true ∧
     tagHasOmitEmpty "ttl,omitempty" = true ∧
     tagHasOmitEmpty "explicit_max_ttl,omitempty" = true) ∧
    lookupField "policies" (marshalFields (tokenOptionsFields o)) =
      (if o.Policies = [] then none else some (.arr (o.Policies.map .str))) ∧
    lookupField "no_default_policy" (marshalFields (tokenOptionsFields o)) =
      (if o.NoDefaultPolicy = false then none else some (.bool o.NoDefaultPolicy)) ∧
    lookupField "no_parent" (marshalFields (tokenOptionsFields o)) =
      (if o.Orphan = false then none else some (.bool o.Orphan)) ∧
    lookupField "renewable" (marshalFields (tokenOptionsFields o)) =
      (if o.Renewable = false then none else some (.bool o.Renewable)) ∧
    lookupField "display_name" (marshalFields (tokenOptionsFields o)) =
      (if o.DisplayName = "" then none else some (.str o.DisplayName)) ∧
    lookupField "num_uses" (marshalFields (tokenOptionsFields o)) =
      (if o.MaxUses = 0 then none else some (.int o.MaxUses)) ∧
    lookupField "ttl" (marshalFields (tokenOptionsFields o)) =
      (if o.TTL = 0 then none else some (.int o.TTL)) ∧
    lookupField "explicit_max_ttl" (marshalFields (tokenOptionsFields o)) =
      (if o.MaxTTL = 0 then none else some (.int o.MaxTTL)) :=
  ⟨tagOmit_period, lookupTO_period o,
   ⟨tagOmit_policies, tagOmit_no_default_policy, tagOmit_no_parent,
    tagOmit_renewable, tagOmit_display_name, tagOmit_num_uses,
    tagOmit_ttl, tagOmit_explicit_max_ttl⟩,
   lookupTO_policies o, lookupTO_no_default_policy o, lookupTO_no_parent o,
   lookupTO_renewable o, lookupTO_display_name o, lookupTO_num_uses o,
   lookupTO_ttl o, lookupTO_explicit_max_ttl o⟩

end Vaultapi

namespace Vaultapi

theorem roundEven_intCast (n : ℤ) : roundEven (n : ℚ) = n := by
  simp [roundEven]

theorem floor_le_roundEven (x : ℚ) : ⌊x⌋ ≤ roundEven x := by
  unfold roundEven
  split_ifs <;> omega

theorem abs_roundEven_sub (x : ℚ) : |(roundEven x : ℚ) - x| ≤ 1/2 := by
  have hf1 : (⌊x⌋ : ℚ) ≤ x := Int.floor_le x
  have hf2 : x < ⌊x⌋ + 1 := Int.lt_floor_add_one x
  unfold roundEven
  split_ifs with h1 h2 h3 <;> push_cast <;> rw [abs_le] <;> constructor <;> linarith

theorem le_roundEven_of_intCast_le {n : ℤ} {x : ℚ} (h : (n:ℚ) ≤ x) :
    n ≤ roundEven x :=
  le_trans (Int.le_floor.mpr h) (floor_le_roundEven x)

theorem fl_zero : fl 0 = 0 := by simp [fl]

theorem fl_neg (x : ℚ) : fl (-x) = -fl x := by
  rcases lt_trichotomy x 0 with h | h | h
  · have h1 : (-x) ≠ 0 := by linarith
    have h2 : 0 < -x := by linarith
    simp [fl, h1, h2, h.ne, not_lt.mpr h.le]
  · simp [h, fl_zero]
  · have h1 : (-x) ≠ 0 := by linarith
    have h2 : ¬(0 < -x) := by linarith
    simp [fl, h1, h2, h, h.ne', neg_neg]

theorem fl_pos_eq {x : ℚ} (h : 0 < x) :
    fl x = (roundEven (x * 2 ^ (52 - Int.log 2 x)) : ℚ) * 2 ^ (Int.log 2 x - 52) := by
  simp [fl, h, h.ne']

theorem log_le_of_lt_zpow {x : ℚ} {e : ℤ} (hx : 0 < x) (h : x < (2:ℚ)^(e+1)) :
    Int.log 2 x ≤ e := by
  have hb : 1 < (2:ℕ) := by norm_num
  have := (Int.lt_zpow_iff_log_lt hb hx).mp
    (show x < ((2:ℕ):ℚ)^(e+1) by exact_mod_cast h)
  omega

theorem le_log_of_zpow_le {x : ℚ} {e : ℤ} (h : (2:ℚ)^e ≤ x) :
    e ≤ Int.log 2 x := by
  have hx : 0 < x := lt_of_lt_of_le (by positivity) h
  have hb : 1 < (2:ℕ) := by norm_num
  exact (Int.zpow_le_iff_le_log hb hx).mp (show ((2:ℕ):ℚ)^e ≤ x by exact_mod_cast h)

theorem log_eq_of_zpow_bounds {x : ℚ} {e : ℤ}
    (h1 : (2:ℚ)^e ≤ x) (h2 : x < (2:ℚ)^(e+1)) : Int.log 2 x = e := by
  have hx : 0 < x := lt_of_lt_of_le (by positivity) h1
  have := le_log_of_zpow_le h1
  have := log_le_of_lt_zpow hx h2
  omega

theorem fl_eq_of {x : ℚ} {e m : ℤ}
    (h1 : (2:ℚ)^e ≤ x) (h2 : x < (2:ℚ)^(e+1))
    (h3 : roundEven (x * 2 ^ (52 - e)) = m) :
    fl x = (m:ℚ) * 2 ^ (e - 52) := by
  have hx : 0 < x := lt_of_lt_of_le (by positivity) h1
  rw [fl_pos_eq hx, log_eq_of_zpow_bounds h1 h2, h3]

theorem zpow_cancel_52 (e : ℤ) : (2:ℚ)^(52 - e) * (2:ℚ)^(e - 52) = 1 := by
  rw [← zpow_add₀ (by norm_num : (2:ℚ) ≠ 0)]
  norm_num

theorem roundEven_intCast_mul (n : ℤ) {k : ℤ} (hk : 0 ≤ k) :
    roundEven ((n:ℚ) * (2:ℚ)^k) = n * 2^k.toNat := by
  have h2 : ((n:ℚ) * (2:ℚ)^k) = ((n * 2^k.toNat : ℤ) : ℚ) := by
    push_cast
    rw [← zpow_natCast (2:ℚ) k.toNat, Int.toNat_of_nonneg hk]
  rw [h2, roundEven_intCast]

theorem fl_intCast {n : ℤ} (h0 : 0 ≤ n) (h53 : (n:ℚ) < 2^(53:ℤ)) : fl (n:ℚ) = n := by
  rcases h0.eq_or_lt with h | h
  · rw [← h]
    simpa using fl_zero
  · have hx : (0:ℚ) < n := by exact_mod_cast h
    have he52 : Int.log 2 ((n:ℚ)) ≤ 52 := by
      apply log_le_of_lt_zpow hx
      norm_num at h53 ⊢
      linarith
    have h52e : (0:ℤ) ≤ 52 - Int.log 2 ((n:ℚ)) := by omega
    rw [fl_pos_eq hx, roundEven_intCast_mul n h52e]
    push_cast
    rw [← zpow_natCast (2:ℚ) (52 - Int.log 2 ((n:ℚ))).toNat,
      Int.toNat_of_nonneg h52e, mul_assoc, zpow_cancel_52, mul_one]

theorem fl_nonneg {x : ℚ} (h : 0 ≤ x) : 0 ≤ fl x := by
  rcases h.eq_or_lt with h0 | h0
  · rw [← h0, fl_zero]
  · rw [fl_pos_eq h0]
    have h1 : (0:ℤ) ≤ roundEven (x * 2 ^ (52 - Int.log 2 x)) := by
      apply le_roundEven_of_intCast_le
      positivity
    have h2 : (0:ℚ) ≤ (roundEven (x * 2 ^ (52 - Int.log 2 x)) : ℚ) := by exact_mod_cast h1
    positivity

theorem abs_fl_sub {x : ℚ} (h : 0 < x) :
    |fl x - x| ≤ (2:ℚ)^(Int.log 2 x - 53) := by
  set e := Int.log 2 x with he
  rw [fl_pos_eq h, ← he]
  set y := x * 2 ^ (52 - e) with hy
  have hxy : x = y * 2 ^ (e - 52) := by
    rw [hy, mul_assoc, zpow_cancel_52, mul_one]
  have key : (roundEven y : ℚ) * 2 ^ (e - 52) - x = ((roundEven y : ℚ) - y) * 2 ^ (e - 52) := by
    rw [sub_mul, ← hxy]
  rw [key, abs_mul, abs_of_pos (show (0:ℚ) < 2^(e-52) by positivity)]
  have h4 : (2:ℚ)^(e - 53) = (1/2) * (2:ℚ)^(e - 52) := by
    rw [show e - 53 = -1 + (e - 52) by omega, zpow_add₀ (by norm_num : (2:ℚ) ≠ 0)]
    norm_num
  rw [h4]
  exact mul_le_mul_of_nonneg_right (abs_roundEven_sub y) (by positivity)

theorem intCast_le_fl {n : ℤ} {x : ℚ} (hx : (n:ℚ) ≤ x) (h0 : 0 < x)
    (he : Int.log 2 x ≤ 52) : (n:ℚ) ≤ fl x := by
  set e := Int.log 2 x with he'
  rw [fl_pos_eq h0, ← he']
  have h52e : (0:ℤ) ≤ 52 - e := by omega
  have h1 : (n * 2^(52 - e).toNat : ℤ) ≤ roundEven (x * 2 ^ (52 - e)) := by
    apply le_roundEven_of_intCast_le
    push_cast
    rw [← zpow_natCast (2:ℚ) (52 - e).toNat, Int.toNat_of_nonneg h52e]
    apply mul_le_mul_of_nonneg_right hx
    positivity
  have h2 : ((n * 2^(52 - e).toNat : ℤ) : ℚ) ≤
      (roundEven (x * 2 ^ (52 - e)) : ℚ) := by exact_mod_cast h1
  calc (n:ℚ) = ((n * 2^(52 - e).toNat : ℤ) : ℚ) * 2 ^ (e - 52) := by
        push_cast
        rw [← zpow_natCast (2:ℚ) (52 - e).toNat, Int.toNat_of_nonneg h52e,
          mul_assoc, zpow_cancel_52, mul_one]
    _ ≤ (roundEven (x * 2 ^ (52 - e)) : ℚ) * 2 ^ (e - 52) :=
        mul_le_mul_of_nonneg_right h2 (by positivity)

end Vaultapi

namespace Vaultapi

theorem truncQ_intCast (n : ℤ) : truncQ (n:ℚ) = n := by
  unfold truncQ
  by_cases h : (0:ℚ) ≤ (n:ℚ)
  · simp [h]
  · simp [h]

theorem truncQ_eq_of {x : ℚ} {n : ℤ} (hn : 0 ≤ n) (h1 : (n:ℚ) ≤ x)
    (h2 : x < (n:ℚ) + 1) : truncQ x = n := by
  have hx : (0:ℚ) ≤ x := le_trans (by exact_mod_cast hn) h1
  unfold truncQ
  rw [if_pos hx, Int.floor_eq_iff]
  exact ⟨h1, h2⟩

theorem truncQ_neg (x : ℚ) : truncQ (-x) = -truncQ x := by
  rcases lt_trichotomy x 0 with h | h | h
  · unfold truncQ
    rw [if_pos (by linarith), if_neg (by linarith), Int.floor_neg]
  · rw [h]
    simp [truncQ]
  · unfold truncQ
    rw [if_neg (by linarith), if_pos (by linarith), Int.ceil_neg]

theorem fl_quotient_bounds (nsec : ℤ) (h1 : 1 ≤ nsec) (h2 : nsec ≤ 999999999) :
    0 < fl ((nsec:ℚ) / 1000000000) ∧
    fl ((nsec:ℚ) / 1000000000) ≤ 999999999/1000000000 + (2:ℚ)^(-54:ℤ) := by
  have hn1 : (1:ℚ) ≤ (nsec:ℚ) := by exact_mod_cast h1
  have hn2 : (nsec:ℚ) ≤ 999999999 := by exact_mod_cast h2
  have hr0 : 0 < (nsec:ℚ) / 1000000000 := by positivity
  have hrle : (nsec:ℚ) / 1000000000 ≤ 999999999/1000000000 := by gcongr
  have hrge : (1:ℚ)/1000000000 ≤ (nsec:ℚ) / 1000000000 := by gcongr
  have hlog : Int.log 2 ((nsec:ℚ) / 1000000000) ≤ -1 := by
    apply log_le_of_lt_zpow hr0
    norm_num
    linarith
  have herr := abs_le.mp (abs_fl_sub hr0)
  have hbd : (2:ℚ)^(Int.log 2 ((nsec:ℚ) / 1000000000) - 53) ≤ (2:ℚ)^(-54:ℤ) :=
    zpow_le_zpow_right₀ (by norm_num) (by omega)
  have h54 : (2:ℚ)^(-54:ℤ) = 1/18014398509481984 := by norm_num
  constructor
  · have hlhs := herr.1
    rw [h54] at hbd
    nlinarith [hbd, hlhs, hrge]
  · have hrhs := herr.2
    linarith [hbd, hrhs, hrle]

theorem durationSecondsInt_eq_tdiv_of_nonneg {d : ℤ} (h0 : 0 ≤ d)
    (hub : d < 16777216000000000) :
    durationSecondsInt d = d.tdiv 1000000000 := by
  have h1e9 : (0:ℤ) < 1000000000 := by norm_num
  have hsec0 : 0 ≤ d.tdiv 1000000000 := Int.tdiv_nonneg h0 h1e9.le
  have hnsec0 : 0 ≤ d.tmod 1000000000 := Int.tmod_nonneg _ h0
  have hnsec1 : d.tmod 1000000000 < 1000000000 := Int.tmod_lt_of_pos d h1e9
  have hd : 1000000000 * d.tdiv 1000000000 + d.tmod 1000000000 = d :=
    Int.tdiv_add_tmod d 1000000000
  have hsec1 : d.tdiv 1000000000 < 16777216 := by omega
  obtain ⟨sec, hsec⟩ : ∃ s, d.tdiv 1000000000 = s := ⟨_, rfl⟩
  obtain ⟨nsec, hnsec⟩ : ∃ n, d.tmod 1000000000 = n := ⟨_, rfl⟩
  rw [hsec] at hsec0 hsec1 hd ⊢
  rw [hnsec] at hnsec0 hnsec1 hd
  have hfsec : float64OfInt sec = (sec:ℚ) := by
    apply fl_intCast hsec0
    have : (sec:ℚ) < 16777216 := by exact_mod_cast hsec1
    norm_num
    linarith
  have hfnsec : float64OfInt nsec = (nsec:ℚ) := by
    apply fl_intCast hnsec0
    have : (nsec:ℚ) < 1000000000 := by exact_mod_cast hnsec1
    norm_num
    linarith
  have hf1e9 : float64OfInt 1000000000 = (1000000000:ℚ) := by
    apply fl_intCast (by norm_num)
    norm_num
  have hfsec2 : fl ((sec:ℚ)) = (sec:ℚ) := by
    apply fl_intCast hsec0
    have : (sec:ℚ) < 16777216 := by exact_mod_cast hsec1
    norm_num
    linarith
  unfold durationSecondsInt durationSeconds
  rw [hsec, hnsec, hfsec, hfnsec, hf1e9]
  rcases hnsec0.eq_or_lt with hz | hpos
  · rw [← hz]
    norm_num [fl_zero, hfsec2, truncQ_intCast]
  · have hq := fl_quotient_bounds nsec (by omega) (by omega)
    have hq1lt1 : fl ((nsec:ℚ) / 1000000000) < 1 := by
      have h54 : (2:ℚ)^(-54:ℤ) = 1/18014398509481984 := by norm_num
      rw [h54] at hq
      linarith [hq.2]
    rcases hsec0.eq_or_lt with hsz | hsp
    · rw [← hsz]
      push_cast
      rw [zero_add]
      have hlog2 : Int.log 2 (fl ((nsec:ℚ) / 1000000000)) ≤ -1 := by
        apply log_le_of_lt_zpow hq.1
        norm_num
        linarith
      have herr2 := abs_le.mp (abs_fl_sub hq.1)
      have hbd2 : (2:ℚ)^(Int.log 2 (fl ((nsec:ℚ) / 1000000000)) - 53) ≤ (2:ℚ)^(-54:ℤ) :=
        zpow_le_zpow_right₀ (by norm_num) (by omega)
      have hnum0 : (999999999:ℚ)/1000000000 + (2:ℚ)^(-54:ℤ) + (2:ℚ)^(-54:ℤ) < 1 := by
        norm_num
      have hup : fl (fl ((nsec:ℚ) / 1000000000)) < 1 := by
        linarith [herr2.2, hbd2, hq.2]
      have hdn : (0:ℚ) ≤ fl (fl ((nsec:ℚ) / 1000000000)) := fl_nonneg hq.1.le
      apply truncQ_eq_of (le_refl 0)
      · exact_mod_cast hdn
      · push_cast
        linarith
    · have hsecq : (1:ℚ) ≤ (sec:ℚ) := by exact_mod_cast hsp
      have hsecub : (sec:ℚ) ≤ 16777215 := by
        have : sec ≤ 16777215 := by omega
        exact_mod_cast this
      have hq10 : (0:ℚ) ≤ fl ((nsec:ℚ) / 1000000000) := hq.1.le
      have hs_lb : (sec:ℚ) ≤ (sec:ℚ) + fl ((nsec:ℚ) / 1000000000) := by linarith
      have hspos : (0:ℚ) < (sec:ℚ) + fl ((nsec:ℚ) / 1000000000) := by linarith
      have hs_ub24 : (sec:ℚ) + fl ((nsec:ℚ) / 1000000000) < (2:ℚ)^(24:ℤ) := by
        norm_num
        linarith
      have hlogs : Int.log 2 ((sec:ℚ) + fl ((nsec:ℚ) / 1000000000)) ≤ 23 := by
        apply log_le_of_lt_zpow hspos
        norm_num at hs_ub24 ⊢
        linarith
      have hfl_lb : (sec:ℚ) ≤ fl ((sec:ℚ) + fl ((nsec:ℚ) / 1000000000)) :=
        intCast_le_fl hs_lb hspos (by omega)
      have herr3 := abs_le.mp (abs_fl_sub hspos)
      have hbd3 : (2:ℚ)^(Int.log 2 ((sec:ℚ) + fl ((nsec:ℚ) / 1000000000)) - 53) ≤
          (2:ℚ)^(-30:ℤ) :=
        zpow_le_zpow_right₀ (by norm_num) (by omega)
      have hnum : (999999999:ℚ)/1000000000 + (2:ℚ)^(-54:ℤ) + (2:ℚ)^(-30:ℤ) < 1 := by
        norm_num
      have hfl_ub : fl ((sec:ℚ) + fl ((nsec:ℚ) / 1000000000)) < (sec:ℚ) + 1 := by
        linarith [herr3.2, hbd3, hq.2]
      exact truncQ_eq_of hsec0 hfl_lb hfl_ub

end Vaultapi

namespace Vaultapi

theorem tmod_neg' (a b : ℤ) : (-a).tmod b = -(a.tmod b) := by
  rw [Int.tmod_def, Int.tmod_def, Int.neg_tdiv]
  ring

theorem durationSecondsInt_neg (d : ℤ) :
    durationSecondsInt (-d) = -durationSecondsInt d := by
  unfold durationSecondsInt durationSeconds float64OfInt
  rw [Int.neg_tdiv, tmod_neg']
  push_cast
  rw [fl_neg, fl_neg, neg_div, fl_neg, ← neg_add, fl_neg, truncQ_neg]

theorem durationSecondsInt_eq_tdiv {d : ℤ} (hlb : -16777216000000000 < d)
    (hub : d < 16777216000000000) : durationSecondsInt d = d.tdiv 1000000000 := by
  rcases le_or_lt 0 d with h | h
  · exact durationSecondsInt_eq_tdiv_of_nonneg h hub
  · have h2 := durationSecondsInt_eq_tdiv_of_nonneg
      (show (0:ℤ) ≤ -d by omega) (show -d < 16777216000000000 by omega)
    have h3 := durationSecondsInt_neg (-d)
    rw [neg_neg] at h3
    rw [h3, h2, Int.neg_tdiv, neg_neg]

theorem roundEven_eq_of_lt_half {x : ℚ} {n : ℤ} (h1 : (n:ℚ) ≤ x)
    (h2 : x < (n:ℚ) + 1/2) : roundEven x = n := by
  have hf : ⌊x⌋ = n := Int.floor_eq_iff.mpr ⟨h1, by linarith⟩
  unfold roundEven
  rw [hf, if_pos (show x - (n:ℚ) < 1/2 by linarith)]

theorem roundEven_eq_of_half_lt {x : ℚ} {n : ℤ} (h1 : (n:ℚ) + 1/2 < x)
    (h2 : x < (n:ℚ) + 1) : roundEven x = n + 1 := by
  have hf : ⌊x⌋ = n := Int.floor_eq_iff.mpr ⟨by linarith, h2⟩
  unfold roundEven
  rw [hf, if_neg (show ¬(x - (n:ℚ) < 1/2) by linarith),
    if_pos (show 1/2 < x - (n:ℚ) by linarith)]

theorem fl_frac_999999999 :
    fl ((999999999:ℚ)/1000000000) = 9007199245733793/9007199254740992 := by
  have hx : ((999999999:ℚ)/1000000000) * 2^(52 - (-1):ℤ) =
      999999999 * 9007199254740992 / 1000000000 := by
    norm_num
  have h3 : roundEven (((999999999:ℚ)/1000000000) * 2^(52 - (-1):ℤ)) =
      9007199245733793 := by
    rw [hx]
    have := roundEven_eq_of_half_lt
      (show ((9007199245733792:ℤ):ℚ) + 1/2 < 999999999 * 9007199254740992 / 1000000000 by
        norm_num)
      (show (999999999:ℚ) * 9007199254740992 / 1000000000 < ((9007199245733792:ℤ):ℚ) + 1 by
        norm_num)
    rw [this]
    norm_num
  have h := fl_eq_of
    (show (2:ℚ)^(-1:ℤ) ≤ (999999999:ℚ)/1000000000 by norm_num)
    (show (999999999:ℚ)/1000000000 < (2:ℚ)^((-1:ℤ)+1) by norm_num) h3
  rw [h]
  norm_num

theorem fl_sum_16777217 :
    fl ((16777216:ℚ) + 9007199245733793/9007199254740992) = 16777217 := by
  have hx : ((16777216:ℚ) + 9007199245733793/9007199254740992) * 2^(52 - (24:ℤ)) =
      ((16777216:ℚ) + 9007199245733793/9007199254740992) * 268435456 := by
    norm_num
  have h3 : roundEven (((16777216:ℚ) + 9007199245733793/9007199254740992) *
      2^(52 - (24:ℤ))) = 4503599895805952 := by
    rw [hx]
    have := roundEven_eq_of_half_lt
      (show ((4503599895805951:ℤ):ℚ) + 1/2 <
          ((16777216:ℚ) + 9007199245733793/9007199254740992) * 268435456 by norm_num)
      (show ((16777216:ℚ) + 9007199245733793/9007199254740992) * 268435456 <
          ((4503599895805951:ℤ):ℚ) + 1 by norm_num)
    rw [this]
    norm_num
  have h := fl_eq_of
    (show (2:ℚ)^(24:ℤ) ≤ (16777216:ℚ) + 9007199245733793/9007199254740992 by norm_num)
    (show (16777216:ℚ) + 9007199245733793/9007199254740992 < (2:ℚ)^((24:ℤ)+1) by norm_num)
    h3
  rw [h]
  norm_num

theorem durationSecondsInt_counterexample :
    durationSecondsInt 16777216999999999 = 16777217 := by
  unfold durationSecondsInt durationSeconds
  have h1 : Int.tdiv 16777216999999999 1000000000 = 16777216 := by decide
  have h2 : Int.tmod 16777216999999999 1000000000 = 999999999 := by decide
  rw [h1, h2]
  have hf1 : float64OfInt 16777216 = (16777216:ℚ) := by
    have h := fl_intCast (show (0:ℤ) ≤ 16777216 by norm_num)
      (show ((16777216:ℤ):ℚ) < 2^(53:ℤ) by norm_num)
    unfold float64OfInt
    rw [show ((16777216:ℚ)) = ((16777216:ℤ):ℚ) by norm_num]
    exact h
  have hf2 : float64OfInt 999999999 = (999999999:ℚ) := by
    have h := fl_intCast (show (0:ℤ) ≤ 999999999 by norm_num)
      (show ((999999999:ℤ):ℚ) < 2^(53:ℤ) by norm_num)
    unfold float64OfInt
    rw [show ((999999999:ℚ)) = ((999999999:ℤ):ℚ) by norm_num]
    exact h
  have hf3 : float64OfInt 1000000000 = (1000000000:ℚ) := by
    have h := fl_intCast (show (0:ℤ) ≤ 1000000000 by norm_num)
      (show ((1000000000:ℤ):ℚ) < 2^(53:ℤ) by norm_num)
    unfold float64OfInt
    rw [show ((1000000000:ℚ)) = ((1000000000:ℤ):ℚ) by norm_num]
    exact h
  rw [hf1, hf2, hf3, fl_frac_999999999, fl_sum_16777217]
  exact_mod_cast truncQ_intCast 16777217

/-- Counterexample to C2 as stated: for the 16777216.999999999-second
increment (16777216999999999 ns, about 194 days), `int(increment.Seconds())`
computed in float64 is 16777217, not the truncation 16777216, and the
query parameter embeds 16777217. -/
theorem renew_increment_not_truncated :
    durationSecondsInt 16777216999999999 = 16777217 ∧
    Int.tdiv 16777216999999999 1000000000 = 16777216 ∧
    (RenewSelfToken 16777216999999999 (fun _ _ => .error "e")).2 =
      [.post "/v1/auth/token/renew-self?increment=16777217" ""] ∧
    (16777217:ℤ) ≠ 16777216 := by
  refine ⟨durationSecondsInt_counterexample, by decide, ?_, by decide⟩
  unfold RenewSelfToken
  rw [durationSecondsInt_counterexample]
  decide

/-- Claim C2, amended: for every increment of magnitude below 2^24 seconds
(16777216000000000 ns, about 194 days), `RenewToken` and `RenewSelfToken`
convert the duration to whole seconds by truncation toward zero and embed
it as the query parameter named `increment` (for larger increments the
float64 arithmetic inside `Duration.Seconds` can round up instead).
In particular a 90.9-second increment yields `increment=90`. -/
theorem renew_increment_truncation (d : ℤ) (id : String)
    (post₁ : String → String → Except GoErr wrappedRenewedToken)
    (post₂ : String → String → Except GoErr wrappedRenewedToken)
    (hlb : -16777216000000000 < d) (hub : d < 16777216000000000) :
    durationSecondsInt d = d.tdiv 1000000000 ∧
    (RenewToken goMarshalLookupToken id d post₁).2 =
      [.post ("/v1/auth/token/renew?increment=" ++ itoa (d.tdiv 1000000000))
        (jsonEncode (marshalLookupToken ⟨id⟩))] ∧
    (RenewSelfToken d post₂).2 =
      [.post ("/v1/auth/token/renew-self?increment=" ++ itoa (d.tdiv 1000000000)) ""] := by
  have h := durationSecondsInt_eq_tdiv hlb hub
  refine ⟨h, ?_, ?_⟩
  · simp only [RenewToken, goMarshalLookupToken, h]
    rcases hpost : post₁ (fixup "/v1/auth" "token/renew"
        ("increment", itoa (d.tdiv 1000000000)))
        (jsonEncode (marshalLookupToken ⟨id⟩)) with e | tok <;>
      simp [hpost, fixup]
  · simp only [RenewSelfToken, h]
    rcases hpost : post₂ (fixup "/v1/auth" "token/renew-self"
        ("increment", itoa (d.tdiv 1000000000))) "" with e | tok <;>
      simp [hpost, fixup]

/-- Witness for the amended C2 at the 90.9-second increment. -/
theorem renew_increment_truncation_witness :
    durationSecondsInt 90900000000 = 90 ∧
    (RenewSelfToken 90900000000 (fun _ _ => .error "e")).2 =
      [.post "/v1/auth/token/renew-self?increment=90" ""] := by
  have h := renew_increment_truncation 90900000000 "t" (fun _ _ => .error "e")
      (fun _ _ => .error "e") (by norm_num) (by norm_num)
  refine ⟨?_, ?_⟩
  · rw [h.1]
    decide
  · rw [h.2.2]
    decide

end Vaultapi
